import Mathlib

/-!
Verification development for the Ambassador configuration core
(`ambassador/config.py`).  The Python class `Config` is shallowly embedded:
its mutable instance state becomes the structure `Config` below, each method
becomes a pure function threading that state, exceptions become
`Except String`, and the schema directory on disk becomes an explicit
function parameter `SchemaFS`.  Python dictionaries are modelled as
association lists with Python insertion/update semantics (`insertA`).
The helper classes `Resource` and `RichStatus` are defined in files that are
not part of this tree; they are modelled from the specification where noted.
-/

/-- Association-list lookup, modelling Python `d.get(k)` / `d[k]`. -/
def lookupA {α : Type} (k : String) : List (String × α) → Option α
  | [] => none
  | (k', v) :: rest => if k' = k then some v else lookupA k rest

/-- Membership test, modelling Python `k in d`. -/
def containsKey {α : Type} (k : String) (m : List (String × α)) : Bool :=
  (lookupA k m).isSome

/-- Association-list update, modelling Python `d[k] = v`: an existing key is
updated in place, a new key is appended at the end. -/
def insertA {α : Type} (k : String) (v : α) : List (String × α) → List (String × α)
  | [] => [(k, v)]
  | (k', v') :: rest => if k' = k then (k, v) :: rest else (k', v') :: insertA k v rest

/-- A loosely typed document value: the payloads handled by `config.py` are
strings, lists of strings (`ambassador_id`), or nested mappings (`config`
bodies of Module resources). -/
inductive Value : Type where
  | str (s : String)
  | list (l : List String)
  | dict (d : List (String × Value))

/-- Python truthiness for a `Value`: empty strings, lists and dicts are falsy. -/
def Value.truthy : Value → Bool
  | .str s => !(s == "")
  | .list l => !l.isEmpty
  | .dict d => !d.isEmpty

/-- The list of identifiers an `ambassador_id` value denotes.
A bare string is wrapped into a one-element list (`config.py` line 225);
a dict would be wrapped likewise, but the configured identity is a string and
is never equal to a dict, so its id list is empty for the membership test. -/
def idList : Value → List String
  | .str s => [s]
  | .list l => l
  | .dict _ => []

/-- Rendering of a pragma `source` value when it is assigned to the (string)
`location` field.  In `config.py` the value is assigned unchanged; the claims
only exercise string sources, so the non-string cases are rendered opaquely. -/
def Value.asLocationString : Value → String
  | .str s => s
  | .list _ => ""
  | .dict _ => ""

/-- Python single-character `str.split`, on the character-list representation.
The result is always nonempty; empty fields are kept. -/
def splitChar (sep : Char) : List Char → List (List Char)
  | [] => [[]]
  | c :: cs =>
    let rest := splitChar sep cs
    if c = sep then [] :: rest
    else (c :: rest.headD []) :: rest.tail

/-- Python `s.split(sep)` for a single-character separator. -/
def pySplit (sep : Char) (s : String) : List String :=
  (splitChar sep s.data).map String.mk

/-- Python `s.startswith(p)`. -/
def pyStartsWith (p s : String) : Bool :=
  p.data.isPrefixOf s.data

/-- The schema version computed by `validate_object` (line 343):
`apiVersion.split('/')[1]`, i.e. the second `/`-separated component. -/
def schemaVersion (apiVersion : String) : String :=
  (pySplit '/' apiVersion).getD 1 ""

/-- The schema version as the specification words it: the entire remainder of
the apiVersion string after stripping the `ambassador/` namespace marker.
This definition follows the spec, not the code; it is compared with
`schemaVersion` in claim C5. -/
def specSchemaVersion (s : String) : String :=
  String.mk (s.data.drop "ambassador/".data.length)

/-- Modelled from the spec: a Resource is one parsed document plus provenance
(`rkey`, `location`) and its ordered body mapping.  The class itself lives in
`resource.py`, which is not part of this tree; the spec describes its fields
in section 3.  The error-annotation list attached to a Resource is not
modelled (no claim reads it); errors are tracked in the `Config.errors`
ledger. -/
structure Resource : Type where
  rkey : String
  location : String
  attrs : List (String × Value)

/-- Dictionary access on a resource body, modelling `resource.get(k)`. -/
def Resource.getVal (r : Resource) (k : String) : Option Value :=
  lookupA k r.attrs

/-- Attribute access for the string-typed core fields (`apiVersion`, `kind`,
`name`).  A missing field reads as the empty string, which is falsy exactly
when the Python attribute is missing or empty. -/
def Resource.getStr (r : Resource) (k : String) : String :=
  match r.getVal k with
  | some (.str s) => s
  | _ => ""

def Resource.apiVersion (r : Resource) : String := r.getStr "apiVersion"

def Resource.kind (r : Resource) : String := r.getStr "kind"

def Resource.name (r : Resource) : String := r.getStr "name"

/-- Python `k in resource`. -/
def Resource.hasKey (r : Resource) (k : String) : Bool :=
  containsKey k r.attrs

/-- Checks that a field, when present, holds a string.  The spec types
`apiVersion`, `kind` and `name` as strings; theorems about resources restrict
to this input space. -/
def strTypedB (r : Resource) (k : String) : Bool :=
  match lookupA k r.attrs with
  | none => true
  | some (.str _) => true
  | some _ => false

/-- The three string-typed core fields of the spec data model. -/
def coreStrTyped (r : Resource) : Bool :=
  strTypedB r "apiVersion" && strTypedB r "kind" && strTypedB r "name"

/-- Modelled from the spec: the synthetic bootstrap resource for the internal
endpoint, saved into `sources` by `_reset` (`Resource.internal_resource()` in
the missing `resource.py`). -/
def Resource.internal_resource : Resource :=
  { rkey := "--internal--", location := "--internal--", attrs := [] }

/-- Modelled from the spec: the synthetic bootstrap resource for the
diagnostics endpoint, saved into `sources` by `_reset`. -/
def Resource.diagnostics_resource : Resource :=
  { rkey := "--diagnostics--", location := "--diagnostics--", attrs := [] }

/-- Modelled from the spec: `Resource.from_resource(base, kind=..., **extra)`
builds a synthetic resource from a base one, overriding the kind and merging
the extra entries (used by `handle_module` to promote the `config` body). -/
def Resource.from_resource (r : Resource) (kind : String)
    (extra : List (String × Value)) : Resource :=
  { r with
      attrs :=
        insertA "kind" (Value.str kind)
          (extra.foldl (fun a kv => insertA kv.1 kv.2 a) r.attrs) }

/-- Modelled from the spec: `RichStatus` (from the missing `utils.py`) is a
truthy/falsy result carrying a message; `fromError` is falsy, `OK` is truthy. -/
structure RichStatus : Type where
  ok : Bool
  msg : String

def RichStatus.fromError (msg : String) : RichStatus := ⟨false, msg⟩

def RichStatus.OK (msg : String) : RichStatus := ⟨true, msg⟩

/-- A loaded JSON schema.  The `jsonschema.validate` engine is external; a
schema is modelled by its validation verdict on a resource body. -/
structure Schema : Type where
  check : List (String × Value) → Bool

/-- Outcome of `json.load(open(schema_path))` in `validate_object`:
the file may be absent (`OSError`), malformed (`JSONDecodeError`), or parse
to a (nonempty, hence truthy) schema document. -/
inductive SchemaLoad : Type where
  | absent
  | malformed
  | loaded (schema : Schema)

/-- The schema directory, as a map from (version, kind) to a load outcome,
mirroring the deterministic path `<schema_dir>/<version>/<Kind>.schema`. -/
def SchemaFS : Type := String → String → SchemaLoad

/-- The mutable state of a `Config` object after `_reset`.  The unused
`breakers`/`outliers` maps and the three constant probe templates are not
modelled: no claim reads them. -/
structure Config : Type where
  current_resource : Option Resource := none
  schemas : List (String × Schema) := []
  config : List (String × List (String × Resource)) := []
  sources : List (String × Resource) := []
  location_overrides : List (String × List (String × Value)) := []
  errors : List (String × List String) := []
  fatal_errors : Nat := 0
  object_errors : Nat := 0

/-- `Config.save_source`: record a resource in the provenance ledger. -/
def save_source (cfg : Config) (r : Resource) : Config :=
  { cfg with sources := insertA r.rkey r cfg.sources }

/-- The state `_reset` leaves behind: empty maps plus the two synthetic
bootstrap sources. -/
def Config.initial : Config :=
  save_source (save_source {} Resource.internal_resource) Resource.diagnostics_resource

/-- The `jsonschema.validate` step of `validate_object` (lines 370-377):
a violation is a recoverable error naming the kind, otherwise fall through to
the OK result. -/
def checkAgainst (schema : Schema) (r : Resource) : RichStatus :=
  if schema.check r.attrs then RichStatus.OK ("valid " ++ r.kind)
  else RichStatus.fromError ("not a valid " ++ r.kind)

/-- `Config.validate_object` (lines 334-379).  Reads and writes only the
schema cache, so it is embedded as a function of the cache; `fs` stands for
the schema directory. -/
def validate_object (fs : SchemaFS) (schemas : List (String × Schema))
    (r : Resource) : RichStatus × List (String × Schema) :=
  if ¬ (r.hasKey "apiVersion" = true ∧ r.hasKey "kind" = true ∧ r.hasKey "name" = true) then
    (RichStatus.fromError "must have apiVersion, kind, and name", schemas)
  else if pyStartsWith "ambassador/" r.apiVersion = true then
    let version := schemaVersion r.apiVersion
    let schema_key := version ++ "-" ++ r.kind
    match lookupA schema_key schemas with
    | some schema => (checkAgainst schema r, schemas)
    | none =>
      match fs version r.kind with
      | .loaded schema => (checkAgainst schema r, insertA schema_key schema schemas)
      | .absent => (RichStatus.OK ("valid " ++ r.kind), schemas)
      | .malformed => (RichStatus.OK ("valid " ++ r.kind), schemas)
  else
    (RichStatus.fromError ("apiVersion " ++ r.apiVersion ++ " unsupported"), schemas)

/-- `Config.safe_store` (lines 381-403): a duplicate name within a bucket
raises; otherwise the resource is filed under its name. -/
def safe_store (cfg : Config) (storage_name : String) (r : Resource) :
    Except String Config :=
  let storage := (lookupA storage_name cfg.config).getD []
  if containsKey r.name storage = true then
    Except.error (r.rkey ++ " defines " ++ r.kind ++ " " ++ r.name ++ ", which is already present")
  else
    Except.ok { cfg with config := insertA storage_name (insertA r.name r storage) cfg.config }

/-- `Config.save_object` (lines 405-414): store under the resource's own kind. -/
def save_object (cfg : Config) (r : Resource) : Except String Config :=
  safe_store cfg r.kind r

/-- `Config.handle_pragma` (lines 456-475): the only key of consequence is
`source`, which registers/overwrites `location_overrides[rkey]['source']`. -/
def handle_pragma (cfg : Config) (r : Resource) : RichStatus × Config :=
  match lookupA "source" r.attrs with
  | some v =>
    let override := (lookupA r.rkey cfg.location_overrides).getD []
    (RichStatus.OK "handled pragma object",
      { cfg with
          location_overrides :=
            insertA r.rkey (insertA "source" v override) cfg.location_overrides })
  | none => (RichStatus.OK "handled pragma object", cfg)

/-- `Config.handle_module` (lines 477-489): promote the `config` body into a
synthetic Module resource and store it under `modules`.  A missing or
non-mapping `config` element raises in Python (attribute/expansion error). -/
def handle_module (cfg : Config) (r : Resource) : Except String Config :=
  match lookupA "config" r.attrs with
  | some (.dict d) => safe_store cfg "modules" (Resource.from_resource r "Module" d)
  | _ => Except.error "module has no config element"

/-- The handler methods `getattr(self, "handle_" + kind.lower())` can resolve
to (lines 454-520). -/
inductive HandlerKind : Type where
  | pragma
  | module
  | ratelimitservice
  | tracingservice
  | authservice
  | mapping

/-- Python `s.lower()` (ASCII case folding on the character list). -/
def pyToLower (s : String) : String :=
  String.mk (s.data.map Char.toLower)

/-- Handler resolution by lowercased kind (`config.py` lines 313-314). -/
def handlerFor (kind : String) : Option HandlerKind :=
  match pyToLower kind with
  | "pragma" => some .pragma
  | "module" => some .module
  | "ratelimitservice" => some .ratelimitservice
  | "tracingservice" => some .tracingservice
  | "authservice" => some .authservice
  | "mapping" => some .mapping
  | _ => none

/-- Invocation of the resolved handler (or of the `save_object` fallback when
none is registered).  A dispatched `handle_pragma` returns a status that the
caller discards. -/
def applyHandler : Option HandlerKind → Config → Resource → Except String Config
  | none, cfg, r => save_object cfg r
  | some .pragma, cfg, r => Except.ok (handle_pragma cfg r).2
  | some .module, cfg, r => handle_module cfg r
  | some .ratelimitservice, cfg, r => safe_store cfg "ratelimit_configs" r
  | some .tracingservice, cfg, r => safe_store cfg "tracing_configs" r
  | some .authservice, cfg, r => safe_store cfg "auth_configs" r
  | some .mapping, cfg, r => safe_store cfg "mappings" r

/-- `Config.post_error` (lines 264-278): save the resource as a source and
append the error to the per-rkey ledger.  `load_all` always passes the
resource explicitly, so the `current_resource` fallback is not modelled. -/
def post_error (cfg : Config) (rc : RichStatus) (r : Resource) : Config :=
  let cfg1 := save_source cfg r
  { cfg1 with
      errors :=
        insertA r.rkey ((lookupA r.rkey cfg1.errors).getD [] ++ [rc.msg]) cfg1.errors }

/-- The state `process` has built just before invoking the handler: current
resource set, provenance saved, schema cache updated by `validate_object`. -/
def preHandlerConfig (fs : SchemaFS) (cfg : Config) (r : Resource) : Config :=
  { save_source { cfg with current_resource := some r } r with
      schemas :=
        (validate_object fs cfg.schemas r).2 }

/-- `Config.process` (lines 280-332).  The `raise` at line 326 re-raises any
handler exception, so a handler failure propagates as `Except.error`; the
unreachable conversion to a RichStatus error after it is dead code. -/
def process (fs : SchemaFS) (cfg : Config) (r : Resource) :
    Except String (RichStatus × Config) :=
  let cfg0 := { cfg with current_resource := some r }
  if r.apiVersion = "" then Except.ok (RichStatus.fromError "need apiVersion", cfg0)
  else if r.kind = "" then Except.ok (RichStatus.fromError "need kind", cfg0)
  else if r.kind = "Pragma" then Except.ok (handle_pragma cfg0 r)
  else if r.hasKey "name" = false then Except.ok (RichStatus.fromError "need name", cfg0)
  else
    let rc := (validate_object fs cfg.schemas r).1
    let cfg2 := preHandlerConfig fs cfg r
    if rc.ok = false then Except.ok (rc, cfg2)
    else
      match applyHandler (handlerFor r.kind) cfg2 r with
      | .error e => Except.error e
      | .ok cfg3 =>
        Except.ok (RichStatus.OK (r.kind ++ " object processed successfully"),
                   { cfg3 with current_resource := none })

/-- The location-override step of `load_all` (lines 212-215): a recorded
pragma override replaces the location, defaulting to the rkey when the
override record has no `source` entry. -/
def applyOverride (cfg : Config) (r : Resource) : Resource :=
  match lookupA r.rkey cfg.location_overrides with
  | none => r
  | some ov =>
    { r with
        location :=
          match lookupA "source" ov with
          | some v => v.asLocationString
          | none => r.rkey }

/-- The ownership filter of `load_all` (lines 218-230): with a truthy
`ambassador_id` value whose id list excludes the configured identity, the
resource triggers the early `return`. -/
def skipsId (ambassador_id : String) (r : Resource) : Bool :=
  let allowed := (r.getVal "ambassador_id").getD (Value.str "default")
  allowed.truthy && !((idList allowed).contains ambassador_id)

/-- One step of `load_all`, after the filter has passed. -/
inductive StepResult : Type where
  | skipReturn (cfg : Config)
  | raised (e : String)
  | proceed (cfg : Config)

/-- The `process`-and-`post_error` tail of one `load_all` iteration
(lines 234-238). -/
def processStep (fs : SchemaFS) (cfg : Config) (r : Resource) : StepResult :=
  match process fs cfg r with
  | .error e => .raised e
  | .ok (rc, cfg') => if rc.ok then .proceed cfg' else .proceed (post_error cfg' rc r)

/-- One iteration of the `load_all` loop (lines 208-238).  On an identity
mismatch the Python code executes `return`, leaving the whole function:
this is `skipReturn`, not a continue. -/
def load_one (fs : SchemaFS) (ambassador_id : String) (cfg : Config)
    (r0 : Resource) : StepResult :=
  let r := applyOverride cfg r0
  if skipsId ambassador_id r = true then .skipReturn cfg
  else processStep fs cfg r

/-- The `load_all` loop plus the final fatal-error check (lines 240-242).
The early `return` bypasses that check as well. -/
def load_list (fs : SchemaFS) (ambassador_id : String) (cfg : Config) :
    List Resource → Except String Config
  | [] =>
    if cfg.fatal_errors ≠ 0 then
      Except.error "ERROR ERROR ERROR Unparseable configuration; exiting"
    else Except.ok cfg
  | r :: rest =>
    match load_one fs ambassador_id cfg r with
    | .skipReturn cfg' => Except.ok cfg'
    | .raised e => Except.error e
    | .proceed cfg' => load_list fs ambassador_id cfg' rest

/-- `Config.load_all` (lines 203-245), with the configured identity
(`Config.ambassador_id`, an environment-derived class variable) passed
explicitly. -/
def load_all (fs : SchemaFS) (ambassador_id : String) (cfg : Config)
    (resources : List Resource) : Except String Config :=
  load_list fs ambassador_id cfg resources

/-! Association-list lemmas. -/

theorem lookupA_insertA_self {α : Type} (k : String) (v : α) (m : List (String × α)) :
    lookupA k (insertA k v m) = some v := by
  induction m with
  | nil => simp [insertA, lookupA]
  | cons hd tl ih =>
    by_cases h : hd.1 = k
    · simp [insertA, h, lookupA]
    · simp [insertA, h, lookupA, ih]

theorem lookupA_insertA_ne {α : Type} (k k' : String) (v : α) (m : List (String × α))
    (h : k' ≠ k) : lookupA k' (insertA k v m) = lookupA k' m := by
  induction m with
  | nil => simp [insertA, lookupA, Ne.symm h]
  | cons hd tl ih =>
    by_cases h2 : hd.1 = k
    · have h3 : hd.1 ≠ k' := by rw [h2]; exact Ne.symm h
      simp [insertA, h2, lookupA, h3, Ne.symm h]
    · simp [insertA, h2, lookupA, ih]

theorem containsKey_insertA_self {α : Type} (k : String) (v : α) (m : List (String × α)) :
    containsKey k (insertA k v m) = true := by
  simp [containsKey, lookupA_insertA_self]

theorem containsKey_eq_true_of_lookupA {α : Type} {k : String} {m : List (String × α)} {v : α}
    (h : lookupA k m = some v) : containsKey k m = true := by
  simp [containsKey, h]

/-! Characterizations of the embedded operations. -/

theorem safe_store_ok {cfg c : Config} {b : String} {r : Resource}
    (h : safe_store cfg b r = Except.ok c) :
    containsKey r.name ((lookupA b cfg.config).getD []) = false ∧
    c = { cfg with
            config := insertA b (insertA r.name r ((lookupA b cfg.config).getD [])) cfg.config } := by
  simp only [safe_store] at h
  by_cases hc : containsKey r.name ((lookupA b cfg.config).getD []) = true
  · rw [if_pos hc] at h
    exact absurd h (by simp)
  · rw [if_neg hc] at h
    simp only [Except.ok.injEq] at h
    exact ⟨by simp [Bool.not_eq_true] at hc; exact hc, h.symm⟩

theorem applyOverride_attrs (cfg : Config) (r : Resource) :
    (applyOverride cfg r).attrs = r.attrs := by
  unfold applyOverride
  cases lookupA r.rkey cfg.location_overrides <;> rfl

theorem applyOverride_rkey (cfg : Config) (r : Resource) :
    (applyOverride cfg r).rkey = r.rkey := by
  unfold applyOverride
  cases lookupA r.rkey cfg.location_overrides <;> rfl

theorem getStr_congr {r r' : Resource} (h : r.attrs = r'.attrs) (k : String) :
    r.getStr k = r'.getStr k := by
  simp only [Resource.getStr, Resource.getVal, h]

theorem hasKey_congr {r r' : Resource} (h : r.attrs = r'.attrs) (k : String) :
    r.hasKey k = r'.hasKey k := by
  simp only [Resource.hasKey, h]

theorem skipsId_congr {r r' : Resource} (h : r.attrs = r'.attrs) (amb : String) :
    skipsId amb r = skipsId amb r' := by
  simp only [skipsId, Resource.getVal, h]

theorem validate_object_congr (fs : SchemaFS) (s : List (String × Schema))
    {r r' : Resource} (h : r.attrs = r'.attrs) :
    validate_object fs s r = validate_object fs s r' := by
  simp only [validate_object, checkAgainst, Resource.hasKey, Resource.apiVersion,
    Resource.kind, Resource.getStr, Resource.getVal, h]

theorem applyHandler_sources {h : Option HandlerKind} {cfg c : Config} {r : Resource}
    (hh : applyHandler h cfg r = Except.ok c) : c.sources = cfg.sources := by
  cases h with
  | none =>
    simp only [applyHandler, save_object] at hh
    obtain ⟨_, hc⟩ := safe_store_ok hh
    rw [hc]
  | some hk =>
    cases hk with
    | pragma =>
      simp only [applyHandler, Except.ok.injEq] at hh
      rw [← hh]
      simp only [handle_pragma]
      cases lookupA "source" r.attrs <;> rfl
    | module =>
      simp only [applyHandler, handle_module] at hh
      split at hh
      · obtain ⟨_, hc⟩ := safe_store_ok hh
        rw [hc]
      · exact absurd hh (by simp)
    | ratelimitservice =>
      simp only [applyHandler] at hh
      obtain ⟨_, hc⟩ := safe_store_ok hh
      rw [hc]
    | tracingservice =>
      simp only [applyHandler] at hh
      obtain ⟨_, hc⟩ := safe_store_ok hh
      rw [hc]
    | authservice =>
      simp only [applyHandler] at hh
      obtain ⟨_, hc⟩ := safe_store_ok hh
      rw [hc]
    | mapping =>
      simp only [applyHandler] at hh
      obtain ⟨_, hc⟩ := safe_store_ok hh
      rw [hc]

theorem process_ok_sources (fs : SchemaFS) (cfg : Config) (r : Resource) (rc : RichStatus)
    (c : Config)
    (ha : r.apiVersion ≠ "") (hb : r.kind ≠ "") (hcp : r.kind ≠ "Pragma")
    (hn : r.hasKey "name" = true)
    (h : process fs cfg r = Except.ok (rc, c)) :
    lookupA r.rkey c.sources = some r := by
  simp only [process] at h
  rw [if_neg ha, if_neg hb, if_neg hcp, if_neg (by rw [hn]; simp)] at h
  by_cases hv : (validate_object fs cfg.schemas r).1.ok = false
  · rw [if_pos hv] at h
    simp only [Except.ok.injEq, Prod.mk.injEq] at h
    rw [← h.2]
    simp only [preHandlerConfig, save_source]
    exact lookupA_insertA_self _ _ _
  · rw [if_neg hv] at h
    cases hah : applyHandler (handlerFor r.kind) (preHandlerConfig fs cfg r) r with
    | error e => rw [hah] at h; exact absurd h (by simp)
    | ok c3 =>
      rw [hah] at h
      simp only [Except.ok.injEq, Prod.mk.injEq] at h
      rw [← h.2]
      have hsrc3 := applyHandler_sources hah
      rw [show ({ c3 with current_resource := none } : Config).sources = c3.sources from rfl,
        hsrc3]
      simp only [preHandlerConfig, save_source]
      exact lookupA_insertA_self _ _ _

theorem splitChar_ne_nil (sep : Char) (cs : List Char) : splitChar sep cs ≠ [] := by
  cases cs with
  | nil => simp [splitChar]
  | cons c cs' =>
    simp only [splitChar]
    split <;> simp

theorem splitChar_word (sep : Char) (w t : List Char) (hw : sep ∉ w) :
    splitChar sep (w ++ sep :: t) = w :: splitChar sep t := by
  induction w with
  | nil => simp [splitChar]
  | cons c w' ih =>
    have hc : c ≠ sep := fun h => hw (by rw [h]; exact List.mem_cons_self _ _)
    have hw' : sep ∉ w' := fun h => hw (List.mem_cons_of_mem _ h)
    simp only [List.cons_append, splitChar]
    rw [if_neg hc]
    simp only [List.append_eq]
    rw [ih hw']
    simp

/-! Concrete fixtures used by the claim witnesses. -/

/-- A schema directory with no schema files at all. -/
def fsAbsent : SchemaFS := fun _ _ => SchemaLoad.absent

/-- A schema directory whose every file is present but malformed. -/
def fsMalformed : SchemaFS := fun _ _ => SchemaLoad.malformed

/-- A schema that rejects every payload. -/
def schemaReject : Schema := ⟨fun _ => false⟩

/-- A schema directory whose every file holds `schemaReject`. -/
def fsReject : SchemaFS := fun _ _ => SchemaLoad.loaded schemaReject

/-- A schema that accepts every payload. -/
def schemaAccept : Schema := ⟨fun _ => true⟩

/-- A schema directory with an accepting schema exactly at version `v0`,
kind `K`. -/
def fsV0K : SchemaFS :=
  fun v k => if v = "v0" ∧ k = "K" then SchemaLoad.loaded schemaAccept else SchemaLoad.absent

/-- Builds a test resource whose location starts out as its rkey. -/
def mkRes (rkey : String) (attrs : List (String × Value)) : Resource :=
  { rkey := rkey, location := rkey, attrs := attrs }

/-! Claim C1. -/

/-- A resource owned by a different ambassador identity. -/
def c1rOther : Resource := mkRes "k1"
  [("apiVersion", Value.str "ambassador/v0"), ("kind", Value.str "Mapping"),
   ("name", Value.str "m1"), ("ambassador_id", Value.list ["other"])]

/-- A plain valid resource placed after the mismatched one. -/
def c1rSecond : Resource := mkRes "k2"
  [("apiVersion", Value.str "ambassador/v0"), ("kind", Value.str "Mapping"),
   ("name", Value.str "m2")]

/-- The state a run over just `c1rSecond` produces: the resource is recorded
in `sources` and stored in the `mappings` bucket. -/
def c1resultSecond : Config :=
  { Config.initial with
      sources :=
        [("--internal--", Resource.internal_resource),
         ("--diagnostics--", Resource.diagnostics_resource), ("k2", c1rSecond)],
      config := [("mappings", [("m2", c1rSecond)])] }

/-- Claim C1, evaluated at the failing input.  The claim says a resource whose
`ambassador_id` excludes the configured identity is skipped and every
subsequent resource is still processed normally.  The code instead executes
`return` (config.py line 230), so loading the mismatched resource followed by
a perfectly ordinary one leaves the aggregate exactly in its initial state:
the second resource is never processed, recorded or stored, while the same
second resource loaded on its own is processed and stored normally. -/
theorem c1_ownership_mismatch_aborts_batch :
    load_all fsAbsent "default" Config.initial [c1rOther, c1rSecond] =
      Except.ok Config.initial ∧
    load_all fsAbsent "default" Config.initial [c1rSecond] =
      Except.ok c1resultSecond ∧
    containsKey "k2" c1resultSecond.sources = true ∧
    lookupA "m2" ((lookupA "mappings" c1resultSecond.config).getD []) = some c1rSecond := by
  exact ⟨rfl, rfl, rfl, rfl⟩

/-! Claim C2. -/

/-- Claim C2: within one bucket `safe_store` turns a duplicate name into a
raised (pass-fatal) error, while the same name stored into two different
buckets never conflicts and both resources remain stored. -/
theorem c2_safe_store_duplicate_and_distinct_buckets (cfg cfg' : Config)
    (b₁ b₂ : String) (r₁ r₂ : Resource)
    (_ht₁ : coreStrTyped r₁ = true) (_ht₂ : coreStrTyped r₂ = true) :
    (safe_store cfg b₁ r₁ = Except.ok cfg' → r₂.name = r₁.name →
      ∃ e, safe_store cfg' b₁ r₂ = Except.error e)
    ∧ (safe_store cfg b₁ r₁ = Except.ok cfg' → b₁ ≠ b₂ →
      containsKey r₂.name ((lookupA b₂ cfg.config).getD []) = false →
      ∃ cfg'', safe_store cfg' b₂ r₂ = Except.ok cfg'' ∧
        lookupA r₁.name ((lookupA b₁ cfg''.config).getD []) = some r₁ ∧
        lookupA r₂.name ((lookupA b₂ cfg''.config).getD []) = some r₂) := by
  constructor
  · intro h1 hn
    obtain ⟨hfresh, hc⟩ := safe_store_ok h1
    have h2 : safe_store cfg' b₁ r₂ =
        Except.error (r₂.rkey ++ " defines " ++ r₂.kind ++ " " ++ r₂.name ++
          ", which is already present") := by
      simp only [safe_store, hc]
      rw [lookupA_insertA_self, Option.getD_some, hn,
        if_pos (containsKey_insertA_self _ _ _)]
    exact ⟨_, h2⟩
  · intro h1 hb hfresh2
    obtain ⟨hfresh, hc⟩ := safe_store_ok h1
    have hb2 : lookupA b₂ cfg'.config = lookupA b₂ cfg.config := by
      rw [hc]; exact lookupA_insertA_ne _ _ _ _ (Ne.symm hb)
    have h2 : safe_store cfg' b₂ r₂ = Except.ok
        { cfg' with
            config :=
              insertA b₂ (insertA r₂.name r₂ ((lookupA b₂ cfg'.config).getD []))
                cfg'.config } := by
      simp only [safe_store]
      rw [if_neg (by rw [hb2, hfresh2]; simp)]
    refine ⟨_, h2, ?_, ?_⟩
    · rw [lookupA_insertA_ne _ _ _ _ hb, hc, lookupA_insertA_self, Option.getD_some,
        lookupA_insertA_self]
    · rw [lookupA_insertA_self, Option.getD_some, lookupA_insertA_self]

/-- A Mapping named `x`. -/
def c2r1 : Resource := mkRes "k1"
  [("apiVersion", Value.str "ambassador/v0"), ("kind", Value.str "Mapping"),
   ("name", Value.str "x")]

/-- An AuthService also named `x`. -/
def c2r2 : Resource := mkRes "k2"
  [("apiVersion", Value.str "ambassador/v0"), ("kind", Value.str "AuthService"),
   ("name", Value.str "x")]

/-- The state after storing `c2r1` into the `mappings` bucket. -/
def c2cfg1 : Config := { Config.initial with config := [("mappings", [("x", c2r1)])] }

/-- Witness for claim C2 at concrete resources sharing the name `x`. -/
theorem c2_safe_store_duplicate_and_distinct_buckets_witness :
    (∃ e, safe_store c2cfg1 "mappings" c2r2 = Except.error e) ∧
    (∃ cfg'', safe_store c2cfg1 "auth_configs" c2r2 = Except.ok cfg'' ∧
      lookupA c2r1.name ((lookupA "mappings" cfg''.config).getD []) = some c2r1 ∧
      lookupA c2r2.name ((lookupA "auth_configs" cfg''.config).getD []) = some c2r2) := by
  have h := c2_safe_store_duplicate_and_distinct_buckets Config.initial c2cfg1
    "mappings" "auth_configs" c2r1 c2r2 (by decide) (by decide)
  exact ⟨h.1 (by rfl) (by rfl), h.2 (by rfl) (by decide) (by rfl)⟩

/-! Claim C3. -/

/-- Claim C3: processing a Pragma with a `source` key records the location
override for its rkey without touching any bucket, the provenance ledger or
the schema cache, and a resource with the same rkey loaded afterwards has its
location replaced by the override before it is otherwise processed (in
particular, when its load step proceeds, the copy recorded in `sources`
carries the overridden location). -/
theorem c3_pragma_source_override (fs : SchemaFS) (cfg : Config) (p : Resource) (S : String)
    (hapi : p.apiVersion ≠ "")
    (hkind : p.kind = "Pragma")
    (hsrc : lookupA "source" p.attrs = some (Value.str S)) :
    ∃ cfg₁,
      process fs cfg p = Except.ok (RichStatus.OK "handled pragma object", cfg₁) ∧
      cfg₁.sources = cfg.sources ∧ cfg₁.config = cfg.config ∧ cfg₁.schemas = cfg.schemas ∧
      lookupA "source" ((lookupA p.rkey cfg₁.location_overrides).getD []) =
        some (Value.str S) ∧
      (∀ amb (r : Resource), skipsId amb r = false → r.rkey = p.rkey →
        load_one fs amb cfg₁ r = processStep fs cfg₁ { r with location := S } ∧
        (∀ c₂, load_one fs amb cfg₁ r = StepResult.proceed c₂ →
          r.apiVersion ≠ "" → r.kind ≠ "" → r.kind ≠ "Pragma" → r.hasKey "name" = true →
          lookupA p.rkey c₂.sources = some { r with location := S })) := by
  refine ⟨{ cfg with
              current_resource := some p,
              location_overrides :=
                insertA p.rkey (insertA "source" (Value.str S)
                    ((lookupA p.rkey cfg.location_overrides).getD []))
                  cfg.location_overrides }, ?_, rfl, rfl, rfl, ?_, ?_⟩
  · simp only [process]
    rw [if_neg hapi, if_neg (by rw [hkind]; decide), if_pos hkind]
    simp only [handle_pragma, hsrc]
  · rw [lookupA_insertA_self, Option.getD_some, lookupA_insertA_self]
  · intro amb r hid hrk
    set C : Config := { cfg with
        current_resource := some p,
        location_overrides :=
          insertA p.rkey (insertA "source" (Value.str S)
              ((lookupA p.rkey cfg.location_overrides).getD []))
            cfg.location_overrides } with hC
    have hlk : lookupA r.rkey C.location_overrides =
        some (insertA "source" (Value.str S)
          ((lookupA p.rkey cfg.location_overrides).getD [])) := by
      rw [hrk, hC]
      exact lookupA_insertA_self _ _ _
    have hov : applyOverride C r = { r with location := S } := by
      simp only [applyOverride, hlk, lookupA_insertA_self]
      rfl
    have hmain : load_one fs amb C r = processStep fs C { r with location := S } := by
      simp only [load_one, hov]
      rw [if_neg (by
        rw [show skipsId amb { r with location := S } = skipsId amb r from rfl, hid]; simp)]
    refine ⟨hmain, ?_⟩
    intro c₂ hc₂ ha hb hcp hn
    rw [hmain] at hc₂
    simp only [processStep] at hc₂
    cases hp : process fs C { r with location := S } with
    | error e => rw [hp] at hc₂; exact absurd hc₂ (by simp)
    | ok pr =>
      obtain ⟨rc', c'⟩ := pr
      rw [hp] at hc₂
      have hc₃ : (if rc'.ok = true then StepResult.proceed c'
          else StepResult.proceed (post_error c' rc' { r with location := S })) =
          StepResult.proceed c₂ := hc₂
      by_cases hok : rc'.ok = true
      · rw [if_pos hok] at hc₃
        simp only [StepResult.proceed.injEq] at hc₃
        subst hc₃
        have hs := process_ok_sources fs C { r with location := S } rc' c' ha hb hcp hn hp
        rw [← hrk]
        exact hs
      · rw [if_neg hok] at hc₃
        simp only [StepResult.proceed.injEq] at hc₃
        subst hc₃
        simp only [post_error, save_source]
        rw [← hrk]
        exact lookupA_insertA_self _ _ _

/-- A Pragma carrying `source: foo.yaml` for rkey `kp`. -/
def c3p : Resource := mkRes "kp"
  [("apiVersion", Value.str "ambassador/v0"), ("kind", Value.str "Pragma"),
   ("source", Value.str "foo.yaml")]

/-- A Mapping with the same rkey `kp`, loaded after the Pragma. -/
def c3r : Resource := mkRes "kp"
  [("apiVersion", Value.str "ambassador/v0"), ("kind", Value.str "Mapping"),
   ("name", Value.str "m")]

/-- Witness for claim C3 at a concrete Pragma/resource pair. -/
theorem c3_pragma_source_override_witness :
    ∃ cfg₁, process fsAbsent Config.initial c3p =
        Except.ok (RichStatus.OK "handled pragma object", cfg₁) ∧
      cfg₁.sources = Config.initial.sources ∧
      load_one fsAbsent "default" cfg₁ c3r =
        processStep fsAbsent cfg₁ { c3r with location := "foo.yaml" } := by
  obtain ⟨cfg₁, h1, h2, h3, h4, h5, h6⟩ :=
    c3_pragma_source_override fsAbsent Config.initial c3p "foo.yaml" (by decide) rfl rfl
  exact ⟨cfg₁, h1, h2, (h6 "default" c3r (by decide) rfl).1⟩

/-! Claim C4. -/

/-- Claim C4: a non-Pragma resource that passes the ownership filter but is
missing `apiVersion`, `kind` or `name`, or whose validation fails, is still
recorded in `sources` by the pipeline while no config bucket changes. -/
theorem c4_failed_resource_in_sources_not_in_buckets (fs : SchemaFS) (amb : String)
    (cfg : Config) (r : Resource)
    (_ht : coreStrTyped r = true)
    (hid : skipsId amb r = false)
    (h3 : r.kind ≠ "Pragma")
    (hfail : r.apiVersion = "" ∨ r.kind = "" ∨ r.hasKey "name" = false ∨
      (validate_object fs cfg.schemas r).1.ok = false) :
    ∃ c, load_one fs amb cfg r = StepResult.proceed c ∧
      containsKey r.rkey c.sources = true ∧ c.config = cfg.config := by
  have hattr := applyOverride_attrs cfg r
  have hrk := applyOverride_rkey cfg r
  have hmain : load_one fs amb cfg r = processStep fs cfg (applyOverride cfg r) := by
    simp only [load_one]
    rw [if_neg (by rw [skipsId_congr hattr, hid]; simp)]
  set r' := applyOverride cfg r with hr'
  have hav : r'.apiVersion = r.apiVersion := getStr_congr hattr "apiVersion"
  have hki : r'.kind = r.kind := getStr_congr hattr "kind"
  have hnm : r'.hasKey "name" = r.hasKey "name" := hasKey_congr hattr "name"
  have hval : validate_object fs cfg.schemas r' = validate_object fs cfg.schemas r :=
    validate_object_congr fs cfg.schemas hattr
  rw [hmain]
  by_cases e1 : r.apiVersion = ""
  · have hstep : processStep fs cfg r' = StepResult.proceed
        (post_error { cfg with current_resource := some r' }
          (RichStatus.fromError "need apiVersion") r') := by
      simp only [processStep, process]
      rw [hav, if_pos e1]
      rfl
    refine ⟨_, hstep, ?_, rfl⟩
    simp only [post_error, save_source]
    rw [hrk]
    exact containsKey_insertA_self _ _ _
  · by_cases e2 : r.kind = ""
    · have hstep : processStep fs cfg r' = StepResult.proceed
          (post_error { cfg with current_resource := some r' }
            (RichStatus.fromError "need kind") r') := by
        simp only [processStep, process]
        rw [hav, if_neg e1, hki, if_pos e2]
        rfl
      refine ⟨_, hstep, ?_, rfl⟩
      simp only [post_error, save_source]
      rw [hrk]
      exact containsKey_insertA_self _ _ _
    · by_cases e3 : r.hasKey "name" = false
      · have hstep : processStep fs cfg r' = StepResult.proceed
            (post_error { cfg with current_resource := some r' }
              (RichStatus.fromError "need name") r') := by
          simp only [processStep, process]
          rw [hav, if_neg e1, hki, if_neg e2, if_neg (hki ▸ h3), hnm, if_pos e3]
          rfl
        refine ⟨_, hstep, ?_, rfl⟩
        simp only [post_error, save_source]
        rw [hrk]
        exact containsKey_insertA_self _ _ _
      · have h5 : (validate_object fs cfg.schemas r).1.ok = false := by
          rcases hfail with h | h | h | h
          · exact absurd h e1
          · exact absurd h e2
          · exact absurd h e3
          · exact h
        have hstep : processStep fs cfg r' = StepResult.proceed
            (post_error (preHandlerConfig fs cfg r')
              (validate_object fs cfg.schemas r).1 r') := by
          simp only [processStep, process]
          rw [hav, if_neg e1, hki, if_neg e2, if_neg (hki ▸ h3), hnm, if_neg e3, hval,
            if_pos h5]
          show (if (validate_object fs cfg.schemas r).1.ok = true
              then StepResult.proceed (preHandlerConfig fs cfg r')
              else StepResult.proceed
                (post_error (preHandlerConfig fs cfg r') (validate_object fs cfg.schemas r).1 r'))
            = StepResult.proceed
                (post_error (preHandlerConfig fs cfg r') (validate_object fs cfg.schemas r).1 r')
          rw [if_neg (by rw [h5]; simp)]
        refine ⟨_, hstep, ?_, rfl⟩
        simp only [post_error, preHandlerConfig, save_source]
        rw [hrk]
        exact containsKey_insertA_self _ _ _

/-- A resource with apiVersion and kind but no name. -/
def c4r : Resource := mkRes "k4"
  [("apiVersion", Value.str "ambassador/v0"), ("kind", Value.str "Widget")]

/-- Witness for claim C4 at a concrete resource missing its name. -/
theorem c4_failed_resource_in_sources_not_in_buckets_witness :
    ∃ c, load_one fsAbsent "default" Config.initial c4r = StepResult.proceed c ∧
      containsKey c4r.rkey c.sources = true ∧ c.config = Config.initial.config :=
  c4_failed_resource_in_sources_not_in_buckets fsAbsent "default" Config.initial c4r
    (by decide) (by decide) (by decide)
    (Or.inr (Or.inr (Or.inl (by decide))))

/-! Claim C5. -/

/-- Counterexample to claim C5 as stated: for `apiVersion = "ambassador/v0/x"`
the code (`apiVersion.split('/')[1]`) uses version `v0` for the cache key and
schema path, while the entire remainder after stripping the prefix is `v0/x`.
Evaluating `validate_object` confirms the cached key is `v0-K`, not `v0/x-K`. -/
theorem c5_version_counterexample :
    schemaVersion "ambassador/v0/x" = "v0" ∧
    specSchemaVersion "ambassador/v0/x" = "v0/x" ∧
    schemaVersion "ambassador/v0/x" ≠ specSchemaVersion "ambassador/v0/x" ∧
    containsKey "v0-K"
      (validate_object fsV0K []
        (mkRes "c5" [("apiVersion", Value.str "ambassador/v0/x"),
          ("kind", Value.str "K"), ("name", Value.str "n")])).2 = true ∧
    containsKey "v0/x-K"
      (validate_object fsV0K []
        (mkRes "c5" [("apiVersion", Value.str "ambassador/v0/x"),
          ("kind", Value.str "K"), ("name", Value.str "n")])).2 = false := by
  refine ⟨rfl, rfl, by decide, rfl, rfl⟩

/-- Claim C5 as amended: for a supported apiVersion the schema version used by
`validate_object` is the first `/`-separated segment of the remainder after
the `ambassador/` prefix; it equals the entire remainder exactly when that
remainder contains no further slash. -/
theorem c5_schema_version_first_segment (s : String)
    (h : pyStartsWith "ambassador/" s = true) :
    schemaVersion s = (pySplit '/' (specSchemaVersion s)).headD "" := by
  have hpre : "ambassador/".data <+: s.data := by
    simpa [pyStartsWith, List.isPrefixOf_iff_prefix] using h
  obtain ⟨t, ht⟩ := hpre
  have hdata : s.data = "ambassador".data ++ '/' :: t := by rw [← ht]; rfl
  have hsp : splitChar '/' s.data = "ambassador".data :: splitChar '/' t := by
    rw [hdata]
    exact splitChar_word '/' _ t (by decide)
  have hdrop : s.data.drop 11 = t := by rw [hdata]; rfl
  simp only [schemaVersion, pySplit, hsp, specSchemaVersion]
  rw [show "ambassador/".data.length = 11 from rfl, hdrop]
  simp only [List.map_cons, List.getD_cons_succ]
  cases (splitChar '/' t).map String.mk with
  | nil => rfl
  | cons a l => rfl

/-- Witness for the amended claim C5 at a remainder containing a slash. -/
theorem c5_schema_version_first_segment_witness :
    pyStartsWith "ambassador/" "ambassador/v0/x" = true ∧
    schemaVersion "ambassador/v0/x" =
      (pySplit '/' (specSchemaVersion "ambassador/v0/x")).headD "" :=
  ⟨by decide, c5_schema_version_first_segment "ambassador/v0/x" (by decide)⟩

/-! Claim C6. -/

/-- Claim C6: with required fields present, a supported apiVersion and no
cached schema, validation succeeds for any payload when the schema file is
absent; a malformed schema file is treated the same and nothing is cached;
a well-formed schema is cached and a payload it rejects yields a recoverable
error naming the kind. -/
theorem c6_schema_optionality (fs : SchemaFS) (schemas : List (String × Schema))
    (r : Resource)
    (hkeys : r.hasKey "apiVersion" = true ∧ r.hasKey "kind" = true ∧
      r.hasKey "name" = true)
    (hav : pyStartsWith "ambassador/" r.apiVersion = true)
    (hmiss : lookupA (schemaVersion r.apiVersion ++ "-" ++ r.kind) schemas = none) :
    (fs (schemaVersion r.apiVersion) r.kind = SchemaLoad.absent →
      validate_object fs schemas r = (RichStatus.OK ("valid " ++ r.kind), schemas)) ∧
    (fs (schemaVersion r.apiVersion) r.kind = SchemaLoad.malformed →
      validate_object fs schemas r = (RichStatus.OK ("valid " ++ r.kind), schemas)) ∧
    (∀ sch, fs (schemaVersion r.apiVersion) r.kind = SchemaLoad.loaded sch →
      lookupA (schemaVersion r.apiVersion ++ "-" ++ r.kind) (validate_object fs schemas r).2
          = some sch ∧
      (sch.check r.attrs = false →
        (validate_object fs schemas r).1 =
          RichStatus.fromError ("not a valid " ++ r.kind))) := by
  have base : validate_object fs schemas r =
      (match fs (schemaVersion r.apiVersion) r.kind with
        | .loaded schema =>
          (checkAgainst schema r,
            insertA (schemaVersion r.apiVersion ++ "-" ++ r.kind) schema schemas)
        | .absent => (RichStatus.OK ("valid " ++ r.kind), schemas)
        | .malformed => (RichStatus.OK ("valid " ++ r.kind), schemas)) := by
    simp only [validate_object]
    rw [if_neg (not_not_intro ⟨hkeys.1, hkeys.2.1, hkeys.2.2⟩), if_pos hav, hmiss]
  refine ⟨fun h => by rw [base, h], fun h => by rw [base, h], fun sch h => ?_⟩
  rw [base, h]
  refine ⟨lookupA_insertA_self _ _ _, fun hbad => ?_⟩
  show checkAgainst sch r = RichStatus.fromError ("not a valid " ++ r.kind)
  simp only [checkAgainst]
  rw [if_neg (by rw [hbad]; simp)]

/-- A complete resource of kind `Widget`, used to probe validation. -/
def c6r : Resource := mkRes "k6"
  [("apiVersion", Value.str "ambassador/v0"), ("kind", Value.str "Widget"),
   ("name", Value.str "w")]

/-- Witness for claim C6 with all three schema-directory outcomes, using a
rejecting schema for the loaded case. -/
theorem c6_schema_optionality_witness :
    validate_object fsAbsent [] c6r = (RichStatus.OK "valid Widget", []) ∧
    validate_object fsMalformed [] c6r = (RichStatus.OK "valid Widget", []) ∧
    lookupA "v0-Widget" (validate_object fsReject [] c6r).2 = some schemaReject ∧
    (validate_object fsReject [] c6r).1 = RichStatus.fromError "not a valid Widget" := by
  have ha := c6_schema_optionality fsAbsent [] c6r (by decide) (by decide) rfl
  have hm := c6_schema_optionality fsMalformed [] c6r (by decide) (by decide) rfl
  have hl := c6_schema_optionality fsReject [] c6r (by decide) (by decide) rfl
  obtain ⟨hcache, hbad⟩ := hl.2.2 schemaReject rfl
  exact ⟨ha.1 rfl, hm.2.1 rfl, hcache, hbad rfl⟩

/-! Claim C7. -/

/-- Claim C7: with the three fields present, an apiVersion that does not start
with the `ambassador/` prefix always makes validation fail with the
unsupported-apiVersion error, for every schema directory and every cache
state, before any schema lookup could matter. -/
theorem c7_unsupported_apiversion_uniform (fs : SchemaFS)
    (schemas : List (String × Schema)) (r : Resource)
    (hkeys : r.hasKey "apiVersion" = true ∧ r.hasKey "kind" = true ∧
      r.hasKey "name" = true)
    (hav : pyStartsWith "ambassador/" r.apiVersion = false) :
    validate_object fs schemas r =
      (RichStatus.fromError ("apiVersion " ++ r.apiVersion ++ " unsupported"), schemas) := by
  simp only [validate_object]
  rw [if_neg (not_not_intro ⟨hkeys.1, hkeys.2.1, hkeys.2.2⟩), if_neg (by rw [hav]; simp)]

/-- A resource with an unsupported apiVersion prefix. -/
def c7r : Resource := mkRes "k7"
  [("apiVersion", Value.str "other/v1"), ("kind", Value.str "Widget"),
   ("name", Value.str "w")]

/-- Witness for claim C7: the identical outcome whether the schema directory
is empty or supplies a schema for the kind. -/
theorem c7_unsupported_apiversion_uniform_witness :
    validate_object fsAbsent [] c7r =
      (RichStatus.fromError "apiVersion other/v1 unsupported", []) ∧
    validate_object fsReject [] c7r =
      (RichStatus.fromError "apiVersion other/v1 unsupported", []) :=
  ⟨c7_unsupported_apiversion_uniform fsAbsent [] c7r (by decide) (by decide),
   c7_unsupported_apiversion_uniform fsReject [] c7r (by decide) (by decide)⟩

/-! Claim C8. -/

/-- Claim C8: when the resolved handler raises, the exception escapes
`process` unchanged (it is not converted into a per-resource RichStatus
error) and escapes `load_all` as well, so no later resource in the batch is
processed. -/
theorem c8_handler_exception_propagates (fs : SchemaFS) (amb : String) (cfg : Config)
    (r : Resource) (e : String) (rest : List Resource)
    (_ht : coreStrTyped r = true)
    (hov : lookupA r.rkey cfg.location_overrides = none)
    (hid : skipsId amb r = false)
    (ha : r.apiVersion ≠ "") (hb : r.kind ≠ "") (hcp : r.kind ≠ "Pragma")
    (hn : r.hasKey "name" = true)
    (hval : (validate_object fs cfg.schemas r).1.ok = true)
    (hh : applyHandler (handlerFor r.kind) (preHandlerConfig fs cfg r) r = Except.error e) :
    process fs cfg r = Except.error e ∧
    load_all fs amb cfg (r :: rest) = Except.error e := by
  have hp : process fs cfg r = Except.error e := by
    simp only [process]
    rw [if_neg ha, if_neg hb, if_neg hcp, if_neg (by rw [hn]; simp),
      if_neg (by rw [hval]; simp), hh]
  refine ⟨hp, ?_⟩
  have hr' : applyOverride cfg r = r := by simp only [applyOverride, hov]
  simp only [load_all, load_list, load_one, hr']
  rw [if_neg (by rw [hid]; simp)]
  simp only [processStep, hp]

/-- A Mapping named `m`, already present in the `mappings` bucket below. -/
def c8prev : Resource := mkRes "k8prev"
  [("apiVersion", Value.str "ambassador/v0"), ("kind", Value.str "Mapping"),
   ("name", Value.str "m")]

/-- A second Mapping reusing the name `m`, whose handler therefore raises. -/
def c8r : Resource := mkRes "k8"
  [("apiVersion", Value.str "ambassador/v0"), ("kind", Value.str "Mapping"),
   ("name", Value.str "m")]

/-- A perfectly fine resource queued after the raising one. -/
def c8next : Resource := mkRes "k8next"
  [("apiVersion", Value.str "ambassador/v0"), ("kind", Value.str "Mapping"),
   ("name", Value.str "other")]

/-- The aggregate already containing a Mapping named `m`. -/
def c8cfg : Config := { Config.initial with config := [("mappings", [("m", c8prev)])] }

/-- Witness for claim C8: the duplicate-name exception raised by the Mapping
handler escapes both `process` and the whole `load_all` pass. -/
theorem c8_handler_exception_propagates_witness :
    process fsAbsent c8cfg c8r =
      Except.error "k8 defines Mapping m, which is already present" ∧
    load_all fsAbsent "default" c8cfg [c8r, c8next] =
      Except.error "k8 defines Mapping m, which is already present" :=
  c8_handler_exception_propagates fsAbsent "default" c8cfg c8r
    "k8 defines Mapping m, which is already present" [c8next]
    (by decide) rfl (by decide) (by decide) (by decide) (by decide) (by decide) rfl rfl

/-! Claim C9. -/

/-- Claim C9: a valid resource whose lowercased kind has no registered
handler is stored by the generic `save_object` under the bucket named by its
kind, `process` returns a success status and the error ledger is untouched. -/
theorem c9_missing_handler_generic_store (fs : SchemaFS) (cfg : Config) (r : Resource)
    (_ht : coreStrTyped r = true)
    (h1 : r.apiVersion ≠ "") (h2 : r.kind ≠ "") (h3 : r.kind ≠ "Pragma")
    (h4 : r.hasKey "name" = true)
    (h5 : (validate_object fs cfg.schemas r).1.ok = true)
    (h6 : handlerFor r.kind = none)
    (h7 : containsKey r.name ((lookupA r.kind cfg.config).getD []) = false) :
    ∃ c, process fs cfg r =
        Except.ok (RichStatus.OK (r.kind ++ " object processed successfully"), c) ∧
      lookupA r.name ((lookupA r.kind c.config).getD []) = some r ∧
      c.errors = cfg.errors := by
  have hss : safe_store (preHandlerConfig fs cfg r) r.kind r = Except.ok
      { preHandlerConfig fs cfg r with
          config :=
            insertA r.kind (insertA r.name r ((lookupA r.kind cfg.config).getD []))
              cfg.config } := by
    simp only [safe_store]
    rw [if_neg (by
      rw [show (preHandlerConfig fs cfg r).config = cfg.config from rfl, h7]; simp)]
    rfl
  simp only [process]
  rw [if_neg h1, if_neg h2, if_neg h3, if_neg (by rw [h4]; simp),
    if_neg (by rw [h5]; simp), h6]
  simp only [applyHandler, save_object]
  rw [hss]
  refine ⟨_, rfl, ?_, rfl⟩
  rw [show ({ preHandlerConfig fs cfg r with
      config :=
        insertA r.kind (insertA r.name r ((lookupA r.kind cfg.config).getD []))
          cfg.config } : Config).config
    = insertA r.kind (insertA r.name r ((lookupA r.kind cfg.config).getD [])) cfg.config
    from rfl]
  rw [lookupA_insertA_self, Option.getD_some, lookupA_insertA_self]

/-- A valid resource of a kind with no registered handler. -/
def c9r : Resource := mkRes "k9"
  [("apiVersion", Value.str "ambassador/v0"), ("kind", Value.str "Wombat"),
   ("name", Value.str "w")]

/-- Witness for claim C9 at a concrete handler-less kind. -/
theorem c9_missing_handler_generic_store_witness :
    ∃ c, process fsAbsent Config.initial c9r =
        Except.ok (RichStatus.OK "Wombat object processed successfully", c) ∧
      lookupA "w" ((lookupA "Wombat" c.config).getD []) = some c9r ∧
      c.errors = Config.initial.errors :=
  c9_missing_handler_generic_store fsAbsent Config.initial c9r
    (by decide) (by decide) (by decide) (by decide) rfl rfl rfl (by decide)

/-! Claim C10. -/

/-- Claim C10: a present-but-falsy `ambassador_id` (empty list or empty
string) makes `load_all` bypass the ownership check entirely: for every
configured identity the load step goes straight to processing and is never
the early skip-return. -/
theorem c10_falsy_ambassador_id_bypasses_filter (fs : SchemaFS) (cfg : Config)
    (r : Resource) (v : Value)
    (hv : r.getVal "ambassador_id" = some v)
    (hf : v.truthy = false) :
    ∀ amb : String, load_one fs amb cfg r = processStep fs cfg (applyOverride cfg r) ∧
      ∀ c, load_one fs amb cfg r ≠ StepResult.skipReturn c := by
  intro amb
  have hskip : skipsId amb (applyOverride cfg r) = false := by
    rw [skipsId_congr (applyOverride_attrs cfg r) amb]
    simp only [skipsId, hv, Option.getD_some, hf, Bool.false_and]
  have hmain : load_one fs amb cfg r = processStep fs cfg (applyOverride cfg r) := by
    simp only [load_one]
    rw [if_neg (by rw [hskip]; simp)]
  refine ⟨hmain, fun c hc => ?_⟩
  rw [hmain] at hc
  simp only [processStep] at hc
  cases hp : process fs cfg (applyOverride cfg r) with
  | error e => rw [hp] at hc; exact absurd hc (by simp)
  | ok p =>
    rw [hp] at hc
    cases hb : p.1.ok <;> simp [hb] at hc

/-- A resource carrying an explicitly empty `ambassador_id` list. -/
def c10r : Resource := mkRes "k10"
  [("apiVersion", Value.str "ambassador/v0"), ("kind", Value.str "Mapping"),
   ("name", Value.str "m"), ("ambassador_id", Value.list [])]

/-- A resource carrying an empty-string `ambassador_id`. -/
def c10rStr : Resource := mkRes "k10s"
  [("apiVersion", Value.str "ambassador/v0"), ("kind", Value.str "Mapping"),
   ("name", Value.str "ms"), ("ambassador_id", Value.str "")]

/-- Witness for claim C10 under a foreign configured identity, for both falsy
shapes of `ambassador_id`. -/
theorem c10_falsy_ambassador_id_bypasses_filter_witness :
    (load_one fsAbsent "zebra" Config.initial c10r =
        processStep fsAbsent Config.initial (applyOverride Config.initial c10r) ∧
      ∀ c, load_one fsAbsent "zebra" Config.initial c10r ≠ StepResult.skipReturn c) ∧
    (load_one fsAbsent "zebra" Config.initial c10rStr =
        processStep fsAbsent Config.initial (applyOverride Config.initial c10rStr) ∧
      ∀ c, load_one fsAbsent "zebra" Config.initial c10rStr ≠ StepResult.skipReturn c) :=
  ⟨c10_falsy_ambassador_id_bypasses_filter fsAbsent Config.initial c10r
      (Value.list []) rfl rfl "zebra",
   c10_falsy_ambassador_id_bypasses_filter fsAbsent Config.initial c10rStr
      (Value.str "") rfl rfl "zebra"⟩
